import Mathlib

/-!
Shallow embedding of `src/server/storage-supabase.ts` (class `SupabaseStorage`),
a data-access layer over four tables (users, campuses, events, chat sessions).

The database is a record of four tables (lists of rows, in insertion order).
Each storage method becomes a state-passing function `DB → α × DB`; a method
that issues only a SELECT returns the state unchanged, mirroring that the SQL
it issues cannot modify any table.  Row ids are surrogate keys generated from
per-table counters.  `orderBy` clauses become `List.insertionSort` with the
corresponding key relation (SQL leaves the order of ties unspecified; a stable
sort is one valid refinement).

JS platform builtins that the source calls are modeled as explicit function
parameters rather than fixed definitions:
 * `new Date(string)` parsing is a parameter `parse : String → Timestamp`;
 * `Date.getFullYear()` (local year) is a parameter `localYear`;
 * `toLocaleString('default', {month:'long'})` is a parameter `monthName`.
Everything proved about them therefore holds for every behavior of those
builtins.  JS truthiness of a date-typed field (`undefined`, `null` and the
empty string are falsy; every other string and every `Date` object is truthy)
is modeled by `coerceIfTruthy`.
-/

set_option linter.unusedVariables false

namespace TinkuAi

/-- A timestamp: the millisecond value of a JS `Date`. -/
abbrev Timestamp := Int

/-- Row of the `users` table. -/
structure User where
  id : Nat
  email : String
deriving DecidableEq

/-- Row of the `campuses` table. -/
structure Campus where
  id : Nat
  name : String
deriving DecidableEq

/-- Row of the `events` table.  `endDateTime`, `participantCount` and
`rating` are nullable columns (the numeric `rating` is modeled at integer
precision; only its ordering is ever used). -/
structure Event where
  id : Nat
  campusId : Nat
  programType : String
  dateTime : Timestamp
  endDateTime : Option Timestamp
  participantCount : Option Int
  rating : Option Int
deriving DecidableEq

/-- Row of the `chat_sessions` table. -/
structure ChatSession where
  id : Nat
  userId : Nat
  createdAt : Timestamp
deriving DecidableEq

/-- The database state: the four tables plus the surrogate-key counters. -/
structure DB where
  users : List User
  campuses : List Campus
  events : List Event
  chatSessions : List ChatSession
  nextUserId : Nat
  nextCampusId : Nat
  nextEventId : Nat
  nextChatId : Nat
deriving DecidableEq

/-- Input representation of a required date field (`string | Date`). -/
inductive DateInput where
  | str (s : String)
  | date (t : Timestamp)
deriving DecidableEq

/-- A JS optional date field as it can occur at runtime in a payload:
absent (`undefined`), explicitly `null`, or carrying a value. -/
inductive OptDateInput where
  | undef
  | null
  | val (d : DateInput)
deriving DecidableEq

/-- An update-payload field for a nullable non-date column: absent from the
payload, explicitly set to `null`, or set to a value.  (A key that is absent
and a key explicitly present with value `null` are distinct JS payloads.) -/
inductive Upd (α : Type) where
  | unset
  | setNull
  | set (a : α)
deriving DecidableEq

/-- Whether the payload field carries a value that survives into `set()`:
everything except an absent key (whose processed value is `undefined`). -/
def Upd.isSupplied {α : Type} : Upd α → Bool
  | .unset => false
  | .setNull => true
  | .set _ => true

/-- `InsertUser` input data. -/
structure InsertUser where
  email : String
deriving DecidableEq

/-- `InsertCampus` input data. -/
structure InsertCampus where
  name : String
deriving DecidableEq

/-- `InsertEvent` input data.  `dateTime` is required; `endDateTime` may be
absent, null or present; `participantCount` and `rating` are nullable. -/
structure InsertEvent where
  campusId : Nat
  programType : String
  dateTime : DateInput
  endDateTime : OptDateInput
  participantCount : Option Int
  rating : Option Int
deriving DecidableEq

/-- `InsertChatSession` input data. -/
structure InsertChatSession where
  userId : Nat
  createdAt : Timestamp
deriving DecidableEq

/-- `Partial<InsertEvent>`: every field independently absent or supplied.
The date fields use `OptDateInput` since at runtime they can also be null. -/
structure EventUpdates where
  campusId : Option Nat
  programType : Option String
  dateTime : OptDateInput
  endDateTime : OptDateInput
  participantCount : Upd Int
  rating : Upd Int
deriving DecidableEq

/-- The payload with every field absent. -/
def EventUpdates.empty : EventUpdates :=
  { campusId := none, programType := none, dateTime := .undef,
    endDateTime := .undef, participantCount := .unset, rating := .unset }

/-- JS `new Date(x)` on a required (present) date field: parse a string,
copy a `Date`. -/
def newDate (parse : String → Timestamp) : DateInput → Timestamp
  | .str s => parse s
  | .date t => t

/-- Models the JS expression `x ? new Date(x) : fallback` on an optional date
field: `some` of the coerced value when `x` is truthy, `none` when `x` is
falsy (`undefined`, `null`, the empty string).  A `Date` object is always
truthy; a non-empty string is truthy. -/
def coerceIfTruthy (parse : String → Timestamp) : OptDateInput → Option Timestamp
  | .undef => none
  | .null => none
  | .val (.str s) => if s = "" then none else some (parse s)
  | .val (.date t) => some t

namespace SupabaseStorage

/-- `getUser(id)`: `select.from(users).where(eq(users.id, id)).limit(1)`,
then `result[0]`. -/
def getUser (db : DB) (id : Nat) : Option User × DB :=
  ((db.users.filter (fun u => u.id == id)).head?, db)

/-- `getUserByEmail(email)`: same shape, keyed on email. -/
def getUserByEmail (db : DB) (email : String) : Option User × DB :=
  ((db.users.filter (fun u => u.email == email)).head?, db)

/-- `createUser(data)`: insert with generated id, return the created row. -/
def createUser (db : DB) (data : InsertUser) : User × DB :=
  let u : User := { id := db.nextUserId, email := data.email }
  (u, { db with users := db.users ++ [u], nextUserId := db.nextUserId + 1 })

/-- `getCampus(id)`. -/
def getCampus (db : DB) (id : Nat) : Option Campus × DB :=
  ((db.campuses.filter (fun c => c.id == id)).head?, db)

/-- Key relation for `orderBy(asc(campuses.name))`. -/
def campusNameLE (a b : Campus) : Prop := a.name ≤ b.name

instance : DecidableRel campusNameLE :=
  fun a b => inferInstanceAs (Decidable (a.name ≤ b.name))

instance : IsTotal Campus campusNameLE := ⟨fun a b => le_total a.name b.name⟩

instance : IsTrans Campus campusNameLE := ⟨fun _ _ _ h h' => le_trans h h'⟩

/-- `getAllCampuses()`: all rows ordered ascending by name. -/
def getAllCampuses (db : DB) : List Campus × DB :=
  (db.campuses.insertionSort campusNameLE, db)

/-- `createCampus(data)`. -/
def createCampus (db : DB) (data : InsertCampus) : Campus × DB :=
  let c : Campus := { id := db.nextCampusId, name := data.name }
  (c, { db with campuses := db.campuses ++ [c], nextCampusId := db.nextCampusId + 1 })

/-- `updateCampus(id, updates)` with `Partial<InsertCampus>` (only field:
`name`): set the supplied fields on the matching row, return `result[0]`.
With an empty payload the query library's `set()` throws
`No values to set` before any SQL is issued. -/
def updateCampus (db : DB) (id : Nat) (name? : Option String) :
    Except String (Option Campus) × DB :=
  match name? with
  | none => (.error "No values to set", db)
  | some n =>
    let updated := db.campuses.map (fun c => if c.id == id then { c with name := n } else c)
    (.ok ((updated.filter (fun c => c.id == id)).head?), { db with campuses := updated })

/-- `getEvent(id)`. -/
def getEvent (db : DB) (id : Nat) : Option Event × DB :=
  ((db.events.filter (fun e => e.id == id)).head?, db)

/-- Key relation for `orderBy(asc(events.dateTime))`. -/
def dateTimeLE (a b : Event) : Prop := a.dateTime ≤ b.dateTime

instance : DecidableRel dateTimeLE :=
  fun a b => inferInstanceAs (Decidable (a.dateTime ≤ b.dateTime))

instance : IsTotal Event dateTimeLE := ⟨fun a b => le_total a.dateTime b.dateTime⟩

instance : IsTrans Event dateTimeLE := ⟨fun _ _ _ h h' => le_trans h h'⟩

/-- Key relation for `orderBy(desc(events.dateTime))`. -/
def dateTimeGE (a b : Event) : Prop := b.dateTime ≤ a.dateTime

instance : DecidableRel dateTimeGE :=
  fun a b => inferInstanceAs (Decidable (b.dateTime ≤ a.dateTime))

instance : IsTotal Event dateTimeGE := ⟨fun a b => le_total b.dateTime a.dateTime⟩

instance : IsTrans Event dateTimeGE := ⟨fun _ _ _ h h' => le_trans h' h⟩

/-- `getEventsByCampus(campusId)`: events of the campus, descending by
`dateTime`. -/
def getEventsByCampus (db : DB) (campusId : Nat) : List Event × DB :=
  ((db.events.filter (fun e => e.campusId == campusId)).insertionSort dateTimeGE, db)

/-- `getEventsInDateRange(campusId, startDate, endDate)`: campus events with
`gte(dateTime, startDate)` and `lte(dateTime, endDate)`, ascending by
`dateTime`. -/
def getEventsInDateRange (db : DB) (campusId : Nat) (startDate endDate : Timestamp) :
    List Event × DB :=
  ((db.events.filter (fun e =>
      e.campusId == campusId && decide (startDate ≤ e.dateTime)
        && decide (e.dateTime ≤ endDate))).insertionSort dateTimeLE, db)

/-- `createEvent(data)`: spread of `eventData` with
`dateTime: new Date(eventData.dateTime)` and
`endDateTime: eventData.endDateTime ? new Date(eventData.endDateTime) : null`,
then insert and return the created row. -/
def createEvent (parse : String → Timestamp) (db : DB) (data : InsertEvent) :
    Event × DB :=
  let ev : Event :=
    { id := db.nextEventId
      campusId := data.campusId
      programType := data.programType
      dateTime := newDate parse data.dateTime
      endDateTime := coerceIfTruthy parse data.endDateTime
      participantCount := data.participantCount
      rating := data.rating }
  (ev, { db with events := db.events ++ [ev], nextEventId := db.nextEventId + 1 })

/-- Effect of `db.update(events).set(processedUpdates)` on one row, where
`processedUpdates` is the spread of `updates` with
`dateTime: updates.dateTime ? new Date(updates.dateTime) : undefined` and
`endDateTime: updates.endDateTime ? new Date(updates.endDateTime) : undefined`.
A key whose value is `undefined` is skipped by `set` (column untouched); a key
explicitly present with `null` sets the column to null. Consequently a falsy
`dateTime`/`endDateTime` (null, empty string, absent) is skipped, while a
null `participantCount`/`rating` is written. -/
def applyEventUpdates (parse : String → Timestamp) (u : EventUpdates) (e : Event) :
    Event :=
  { e with
    campusId := u.campusId.getD e.campusId
    programType := u.programType.getD e.programType
    dateTime := (coerceIfTruthy parse u.dateTime).getD e.dateTime
    endDateTime :=
      match coerceIfTruthy parse u.endDateTime with
      | some t => some t
      | none => e.endDateTime
    participantCount :=
      match u.participantCount with
      | .unset => e.participantCount
      | .setNull => none
      | .set n => some n
    rating :=
      match u.rating with
      | .unset => e.rating
      | .setNull => none
      | .set n => some n }

/-- Whether `processedUpdates` contains at least one value that is not
`undefined`.  The processed values are: `campusId` and `programType` when
present, the two date fields when truthy (a falsy one was mapped to
`undefined`), and `participantCount` / `rating` whenever their key is
present (an explicit null is a value). -/
def hasSetValues (parse : String → Timestamp) (u : EventUpdates) : Bool :=
  u.campusId.isSome || u.programType.isSome
    || (coerceIfTruthy parse u.dateTime).isSome
    || (coerceIfTruthy parse u.endDateTime).isSome
    || u.participantCount.isSupplied || u.rating.isSupplied

/-- `updateEvent(id, updates)`: apply the processed updates to the rows
matching `id` and return `result[0]` of the returned (updated) rows.  When
every value of `processedUpdates` is `undefined` (empty payload, or only
falsy date fields), the query library's `set()` throws `No values to set`
before any SQL is issued, leaving the state unchanged. -/
def updateEvent (parse : String → Timestamp) (db : DB) (id : Nat) (u : EventUpdates) :
    Except String (Option Event) × DB :=
  if hasSetValues parse u then
    let updated := db.events.map (fun e => if e.id == id then applyEventUpdates parse u e else e)
    (.ok ((updated.filter (fun e => e.id == id)).head?), { db with events := updated })
  else
    (.error "No values to set", db)

/-- `deleteEvent(id)`: delete matching rows, return `result.length > 0`. -/
def deleteEvent (db : DB) (id : Nat) : Bool × DB :=
  let deleted := db.events.filter (fun e => e.id == id)
  (decide (deleted.length > 0), { db with events := db.events.filter (fun e => !(e.id == id)) })

/-- `createChatSession(data)`. -/
def createChatSession (db : DB) (data : InsertChatSession) : ChatSession × DB :=
  let s : ChatSession := { id := db.nextChatId, userId := data.userId, createdAt := data.createdAt }
  (s, { db with chatSessions := db.chatSessions ++ [s], nextChatId := db.nextChatId + 1 })

/-- Key relation for `orderBy(desc(chatSessions.createdAt))`. -/
def createdAtGE (a b : ChatSession) : Prop := b.createdAt ≤ a.createdAt

instance : DecidableRel createdAtGE :=
  fun a b => inferInstanceAs (Decidable (b.createdAt ≤ a.createdAt))

instance : IsTotal ChatSession createdAtGE := ⟨fun a b => le_total b.createdAt a.createdAt⟩

instance : IsTrans ChatSession createdAtGE := ⟨fun _ _ _ h h' => le_trans h' h⟩

/-- `getChatHistory(userId, limit)`: the user's sessions, descending by
`createdAt`, truncated to `limit` rows. -/
def getChatHistory (db : DB) (userId : Nat) (limit : Nat) : List ChatSession × DB :=
  (((db.chatSessions.filter (fun s => s.userId == userId)).insertionSort createdAtGE).take limit,
    db)

/-- `getChatHistory(userId)` with the limit left unspecified: the default
parameter value is 10. -/
def getChatHistoryDefault (db : DB) (userId : Nat) : List ChatSession × DB :=
  getChatHistory db userId 10

/-- `getEventTypeDistribution(campusId)`: group the campus events by
`programType` and count each group (groups listed in first-occurrence
order; SQL leaves the grouping order unspecified). -/
def getEventTypeDistribution (db : DB) (campusId : Nat) : List (String × Nat) × DB :=
  let evs := db.events.filter (fun e => e.campusId == campusId)
  let types := (evs.map (fun e => e.programType)).foldl
    (fun acc t => if t ∈ acc then acc else acc ++ [t]) []
  (types.map (fun t => (t, (evs.filter (fun e => e.programType == t)).length)), db)

/-- One step of the reduce in `getMonthlyParticipation`:
`acc[month] = (acc[month] || 0) + n`.  A JS object keeps the insertion order
of its (non-numeric) string keys, so the accumulator is an association list:
an existing key is updated in place, a new key is appended. -/
def bumpMonth (m : String) (n : Int) (acc : List (String × Int)) : List (String × Int) :=
  if acc.any (fun p => p.1 == m) then
    acc.map (fun p => if p.1 == m then (p.1, p.2 + n) else p)
  else acc ++ [(m, n)]

/-- `getMonthlyParticipation(campusId, year)`: select the campus events,
filter in memory to those whose local year (`getFullYear`) equals `year`,
then reduce into a month-name-keyed record summing
`(event.participantCount || 0)`; `Object.entries` returns the key insertion
order. -/
def getMonthlyParticipation (localYear : Timestamp → Int) (monthName : Timestamp → String)
    (db : DB) (campusId : Nat) (year : Int) : List (String × Int) × DB :=
  let rows := db.events.filter (fun e => e.campusId == campusId)
  let filtered := rows.filter (fun e => localYear e.dateTime == year)
  (filtered.foldl (fun acc e => bumpMonth (monthName e.dateTime) (e.participantCount.getD 0) acc)
    [], db)

/-- Sort key for `orderBy(desc(events.rating))`: Postgres `DESC` places NULL
first, so a null rating acts as `⊤`. -/
def ratingKey (e : Event) : WithTop Int :=
  match e.rating with
  | none => ⊤
  | some r => (r : WithTop Int)

/-- Key relation for `orderBy(desc(events.rating))`. -/
def ratingGE (a b : Event) : Prop := ratingKey b ≤ ratingKey a

instance : DecidableRel ratingGE :=
  fun a b => inferInstanceAs (Decidable (ratingKey b ≤ ratingKey a))

instance : IsTotal Event ratingGE := ⟨fun a b => le_total (ratingKey b) (ratingKey a)⟩

instance : IsTrans Event ratingGE := ⟨fun _ _ _ h h' => le_trans h' h⟩

/-- `getTopRatedEvents(campusId, limit)`: campus events descending by
`rating`, truncated to `limit`. -/
def getTopRatedEvents (db : DB) (campusId : Nat) (limit : Nat) : List Event × DB :=
  (((db.events.filter (fun e => e.campusId == campusId)).insertionSort ratingGE).take limit, db)

/-- `getTopRatedEvents(campusId)` with the default limit 5. -/
def getTopRatedEventsDefault (db : DB) (campusId : Nat) : List Event × DB :=
  getTopRatedEvents db campusId 5

end SupabaseStorage

/-! Spec-side auxiliary definitions used to state the claims. -/

/-- The sum, over the events of `l` whose month name is `m`, of
`participantCount` with null counted as zero. -/
def monthSum (mn : Timestamp → String) (m : String) (l : List Event) : Int :=
  ((l.filter (fun e => mn e.dateTime == m)).map (fun e => e.participantCount.getD 0)).sum

/-- The events of a campus whose stored `dateTime` has the given local year. -/
def yearEvents (ly : Timestamp → Int) (db : DB) (campusId : Nat) (year : Int) : List Event :=
  (db.events.filter (fun e => e.campusId == campusId)).filter
    (fun e => ly e.dateTime == year)

/-- First-occurrence lookup in a month association list. -/
def monthVal (m : String) : List (String × Int) → Option Int
  | [] => none
  | p :: rest => if p.1 = m then some p.2 else monthVal m rest

/-! Concrete inputs used by the witness theorems. -/

/-- A concrete stand-in for the JS date-string parser (any function works;
the theorems are universally quantified over it). -/
def parse0 : String → Timestamp := fun s => (s.length : Int)

/-- A concrete local-year function: every timestamp lies in 2024. -/
def ly2024 : Timestamp → Int := fun _ => 2024

/-- A concrete month-name function: every timestamp falls in March. -/
def mnMarch : Timestamp → String := fun _ => "March"

/-- The empty database. -/
def emptyDB : DB :=
  { users := [], campuses := [], events := [], chatSessions := [],
    nextUserId := 1, nextCampusId := 1, nextEventId := 1, nextChatId := 1 }

/-- A concrete event with a non-null `endDateTime` and `participantCount`. -/
def evA : Event :=
  { id := 1, campusId := 1, programType := "workshop", dateTime := 0,
    endDateTime := some 5, participantCount := some 10, rating := none }

/-- A second concrete event on the same campus. -/
def evB : Event :=
  { id := 2, campusId := 1, programType := "seminar", dateTime := 3,
    endDateTime := none, participantCount := some 5, rating := some 4 }

/-- A database holding the two concrete events. -/
def dbEvents : DB := { emptyDB with events := [evA, evB], nextEventId := 3 }

/-- The update payload `{ endDateTime: null, participantCount: 3 }`: an
explicit null date field plus one real value, so `set()` has values. -/
def updNullEndPlus : EventUpdates :=
  { EventUpdates.empty with endDateTime := .null, participantCount := .set 3 }

/-- A concrete insert payload whose `endDateTime` is explicitly null. -/
def insNullEnd : InsertEvent :=
  { campusId := 1, programType := "workshop", dateTime := .date 7,
    endDateTime := .null, participantCount := none, rating := none }

/-- A database with five chat sessions of user 1. -/
def dbChats : DB :=
  { emptyDB with
    chatSessions :=
      [ { id := 1, userId := 1, createdAt := 10 },
        { id := 2, userId := 1, createdAt := 40 },
        { id := 3, userId := 1, createdAt := 20 },
        { id := 4, userId := 1, createdAt := 50 },
        { id := 5, userId := 1, createdAt := 30 } ],
    nextChatId := 6 }

/-! Shared helper lemmas about `where(p)` + `limit(1)` + `result[0]` lookups. -/

open SupabaseStorage

/-- A filtered lookup is `none` exactly when no row satisfies the predicate,
returns only satisfying rows of the table, and returns something whenever a
satisfying row exists. -/
theorem lookupOne {α : Type} (p : α → Bool) (l : List α) (q : α → Prop)
    (hpq : ∀ x, p x = true ↔ q x) :
    ((l.filter p).head? = none ↔ ∀ x ∈ l, ¬ q x) ∧
    (∀ x, (l.filter p).head? = some x → x ∈ l ∧ q x) ∧
    ((∃ x ∈ l, q x) → ∃ x, (l.filter p).head? = some x) := by
  refine ⟨?_, ?_, ?_⟩
  · rw [List.head?_eq_none_iff, List.filter_eq_nil_iff]
    constructor
    · intro h x hx hq
      exact h x hx ((hpq x).mpr hq)
    · intro h x hx hp
      exact h x hx ((hpq x).mp hp)
  · intro x hx
    have hmem : x ∈ l.filter p := by
      cases hf : l.filter p with
      | nil => rw [hf] at hx; cases hx
      | cons a t =>
        rw [hf] at hx
        simp only [List.head?_cons, Option.some.injEq] at hx
        rw [← hx]
        exact List.mem_cons_self a t
    have := List.mem_filter.mp hmem
    exact ⟨this.1, (hpq x).mp this.2⟩
  · rintro ⟨x, hx, hq⟩
    cases hf : l.filter p with
    | nil =>
      exfalso
      have : x ∈ l.filter p := List.mem_filter.mpr ⟨hx, (hpq x).mpr hq⟩
      rw [hf] at this
      cases this
    | cons a t => exact ⟨a, rfl⟩

/-- C9: every read-only method (getUser, getUserByEmail, getCampus,
getAllCampuses, getEvent, getEventsByCampus, getEventsInDateRange,
getChatHistory, getEventTypeDistribution, getMonthlyParticipation,
getTopRatedEvents) issues a single SELECT and leaves the database state
unchanged: the state after the call equals the state before. -/
theorem reads_leave_state_unchanged (db : DB) (id cid uid lim : Nat) (email : String)
    (s e : Timestamp) (year : Int) (ly : Timestamp → Int) (mn : Timestamp → String) :
    (getUser db id).2 = db ∧
    (getUserByEmail db email).2 = db ∧
    (getCampus db id).2 = db ∧
    (getAllCampuses db).2 = db ∧
    (getEvent db id).2 = db ∧
    (getEventsByCampus db cid).2 = db ∧
    (getEventsInDateRange db cid s e).2 = db ∧
    (getChatHistory db uid lim).2 = db ∧
    (getEventTypeDistribution db cid).2 = db ∧
    (getMonthlyParticipation ly mn db cid year).2 = db ∧
    (getTopRatedEvents db cid lim).2 = db :=
  ⟨rfl, rfl, rfl, rfl, rfl, rfl, rfl, rfl, rfl, rfl, rfl⟩

/-- C5: after `createCampus`, `getAllCampuses` includes the created campus
(which carries the inserted name), and for every database state the sequence
returned by `getAllCampuses` is sorted ascending by name. -/
theorem createCampus_then_getAllCampuses_sorted (db : DB) (data : InsertCampus) :
    (createCampus db data).1 ∈ (getAllCampuses (createCampus db data).2).1 ∧
    (createCampus db data).1.name = data.name ∧
    ∀ db' : DB, List.Sorted campusNameLE (getAllCampuses db').1 := by
  refine ⟨?_, rfl, fun db' => List.sorted_insertionSort _ _⟩
  show (createCampus db data).1 ∈
    ((createCampus db data).2.campuses.insertionSort campusNameLE)
  rw [List.mem_insertionSort]
  show (createCampus db data).1 ∈ db.campuses ++ [(createCampus db data).1]
  exact List.mem_append_right _ (List.mem_singleton.mpr rfl)

/-- C7: the single-row lookups `getUser`, `getUserByEmail`, `getCampus` and
`getEvent` are total functions into an option type: they return the absent
marker `none` exactly when no row matches (absence is a normal outcome, no
error is raised), they only ever return a matching row of the table, and
when a matching row exists they return one. -/
theorem lookups_absent_marker (db : DB) (id : Nat) (email : String) :
    (((getUser db id).1 = none ↔ ∀ u ∈ db.users, ¬ u.id = id) ∧
      (∀ u, (getUser db id).1 = some u → u ∈ db.users ∧ u.id = id) ∧
      ((∃ u ∈ db.users, u.id = id) → ∃ u, (getUser db id).1 = some u)) ∧
    (((getUserByEmail db email).1 = none ↔ ∀ u ∈ db.users, ¬ u.email = email) ∧
      (∀ u, (getUserByEmail db email).1 = some u → u ∈ db.users ∧ u.email = email) ∧
      ((∃ u ∈ db.users, u.email = email) → ∃ u, (getUserByEmail db email).1 = some u)) ∧
    (((getCampus db id).1 = none ↔ ∀ c ∈ db.campuses, ¬ c.id = id) ∧
      (∀ c, (getCampus db id).1 = some c → c ∈ db.campuses ∧ c.id = id) ∧
      ((∃ c ∈ db.campuses, c.id = id) → ∃ c, (getCampus db id).1 = some c)) ∧
    (((getEvent db id).1 = none ↔ ∀ ev ∈ db.events, ¬ ev.id = id) ∧
      (∀ ev, (getEvent db id).1 = some ev → ev ∈ db.events ∧ ev.id = id) ∧
      ((∃ ev ∈ db.events, ev.id = id) → ∃ ev, (getEvent db id).1 = some ev)) := by
  refine ⟨?_, ?_, ?_, ?_⟩
  · exact lookupOne (fun u => u.id == id) db.users (fun u => u.id = id)
      (fun u => by simp)
  · exact lookupOne (fun u => u.email == email) db.users (fun u => u.email = email)
      (fun u => by simp)
  · exact lookupOne (fun c => c.id == id) db.campuses (fun c => c.id = id)
      (fun c => by simp)
  · exact lookupOne (fun ev => ev.id == id) db.events (fun ev => ev.id = id)
      (fun ev => by simp)

/-- C7 witness: on the concrete database `dbEvents` no user has id 99, and
the lookup indeed returns the absent marker. -/
theorem lookups_absent_marker_w : (getUser dbEvents 99).1 = none :=
  (lookups_absent_marker dbEvents 99 "nobody").1.1.mpr (by decide)

/-- C4: `deleteEvent(id)` returns true iff at least one row matched, removes
exactly the matching rows (all remaining rows are the non-matching rows of
the prior state), and a second call on the same id returns false. -/
theorem deleteEvent_true_iff_matched (db : DB) (id : Nat) :
    ((∃ ev ∈ db.events, ev.id = id) → (deleteEvent db id).1 = true) ∧
    ((∀ ev ∈ db.events, ¬ ev.id = id) → (deleteEvent db id).1 = false) ∧
    (deleteEvent (deleteEvent db id).2 id).1 = false ∧
    (∀ ev ∈ (deleteEvent db id).2.events, ¬ ev.id = id) ∧
    (∀ ev ∈ db.events, ¬ ev.id = id → ev ∈ (deleteEvent db id).2.events) ∧
    (∀ ev ∈ (deleteEvent db id).2.events, ev ∈ db.events) := by
  refine ⟨?_, ?_, ?_, ?_, ?_, ?_⟩
  · rintro ⟨ev, hm, hid⟩
    have h1 : ev ∈ db.events.filter (fun e => e.id == id) :=
      List.mem_filter.mpr ⟨hm, by simp [hid]⟩
    have h2 : db.events.filter (fun e => e.id == id) ≠ [] :=
      List.ne_nil_of_mem h1
    exact decide_eq_true (List.length_pos.mpr h2)
  · intro h
    have h2 : db.events.filter (fun e => e.id == id) = [] :=
      List.filter_eq_nil_iff.mpr (fun e he => by simpa using h e he)
    show decide (0 < (db.events.filter (fun e => e.id == id)).length) = false
    rw [h2]
    decide
  · show decide (0 < ((db.events.filter (fun e => !(e.id == id))).filter
      (fun e => e.id == id)).length) = false
    have h2 : (db.events.filter (fun e => !(e.id == id))).filter
        (fun e => e.id == id) = [] := by
      apply List.filter_eq_nil_iff.mpr
      intro e he
      have := (List.mem_filter.mp he).2
      simp only [Bool.not_eq_true'] at this
      simp [this]
    rw [h2]
    decide
  · intro ev hev
    have := (List.mem_filter.mp hev).2
    simpa using this
  · intro ev hev hid
    exact List.mem_filter.mpr ⟨hev, by simpa using hid⟩
  · intro ev hev
    exact (List.mem_filter.mp hev).1

/-- C4 witness: on the concrete database `dbEvents`, deleting event id 1
returns true (a row matched). -/
theorem deleteEvent_true_iff_matched_w : (deleteEvent dbEvents 1).1 = true :=
  (deleteEvent_true_iff_matched dbEvents 1).1 (by decide)

/-- C3: for start ≤ end, `getEventsInDateRange` returns exactly (as a
permutation of the matching table rows) the events of the campus whose
`dateTime` lies in the inclusive range `[start, end]`, and the result is
ordered ascending by `dateTime`. -/
theorem getEventsInDateRange_inclusive_sorted (db : DB) (cid : Nat)
    (s e : Timestamp) (h : s ≤ e) :
    ((getEventsInDateRange db cid s e).1).Perm
      (db.events.filter (fun ev =>
        ev.campusId == cid && decide (s ≤ ev.dateTime) && decide (ev.dateTime ≤ e))) ∧
    (∀ ev, ev ∈ (getEventsInDateRange db cid s e).1 ↔
      ev ∈ db.events ∧ ev.campusId = cid ∧ s ≤ ev.dateTime ∧ ev.dateTime ≤ e) ∧
    List.Sorted dateTimeLE (getEventsInDateRange db cid s e).1 := by
  refine ⟨List.perm_insertionSort _ _, fun ev => ?_, List.sorted_insertionSort _ _⟩
  show ev ∈ (db.events.filter (fun ev =>
      ev.campusId == cid && decide (s ≤ ev.dateTime)
        && decide (ev.dateTime ≤ e))).insertionSort dateTimeLE ↔ _
  rw [List.mem_insertionSort, List.mem_filter]
  simp [and_assoc]

/-- C3 witness: on the concrete database `dbEvents` with range `[0, 3]`
(where 0 ≤ 3), the result is sorted ascending by `dateTime`. -/
theorem getEventsInDateRange_inclusive_sorted_w :
    List.Sorted dateTimeLE (getEventsInDateRange dbEvents 1 0 3).1 :=
  (getEventsInDateRange_inclusive_sorted dbEvents 1 0 3 (by decide)).2.2

/-- C6: `getChatHistory(userId, limit)` returns only sessions of that user,
ordered descending by `createdAt`, truncated to `limit` rows (exactly
`min limit #sessions` rows, and every omitted session of the user is no newer
than every returned one); when the limit is unspecified it defaults to 10. -/
theorem getChatHistory_desc_limit (db : DB) (uid lim : Nat) :
    (∀ s ∈ (getChatHistory db uid lim).1, s ∈ db.chatSessions ∧ s.userId = uid) ∧
    List.Sorted createdAtGE (getChatHistory db uid lim).1 ∧
    ((getChatHistory db uid lim).1.length
      = min lim (db.chatSessions.filter (fun s => s.userId == uid)).length) ∧
    (∀ s ∈ db.chatSessions, s.userId = uid → s ∉ (getChatHistory db uid lim).1 →
      ∀ r ∈ (getChatHistory db uid lim).1, s.createdAt ≤ r.createdAt) ∧
    getChatHistoryDefault db uid = getChatHistory db uid 10 := by
  have hres : (getChatHistory db uid lim).1
      = ((db.chatSessions.filter (fun s => s.userId == uid)).insertionSort
          createdAtGE).take lim := rfl
  refine ⟨?_, ?_, ?_, ?_, rfl⟩
  · intro s hs
    rw [hres] at hs
    have hmem := List.take_subset _ _ hs
    rw [List.mem_insertionSort] at hmem
    have := List.mem_filter.mp hmem
    exact ⟨this.1, by simpa using this.2⟩
  · rw [hres]
    exact List.Pairwise.sublist (List.take_sublist _ _) (List.sorted_insertionSort _ _)
  · rw [hres, List.length_take, (List.perm_insertionSort _ _).length_eq]
  · intro s hs hsu hnot r hr
    rw [hres] at hnot hr
    have hsL : s ∈ (db.chatSessions.filter (fun t => t.userId == uid)).insertionSort
        createdAtGE :=
      (List.mem_insertionSort _).mpr (List.mem_filter.mpr ⟨hs, by simp [hsu]⟩)
    have hsplit := List.take_append_drop lim
      ((db.chatSessions.filter (fun t => t.userId == uid)).insertionSort createdAtGE)
    have hsorted : List.Pairwise createdAtGE
        (((db.chatSessions.filter (fun t => t.userId == uid)).insertionSort
            createdAtGE).take lim ++
          ((db.chatSessions.filter (fun t => t.userId == uid)).insertionSort
            createdAtGE).drop lim) := by
      rw [hsplit]
      exact List.sorted_insertionSort _ _
    have hdrop : s ∈ ((db.chatSessions.filter (fun t => t.userId == uid)).insertionSort
        createdAtGE).drop lim := by
      rcases List.mem_append.mp (by rw [hsplit]; exact hsL) with h1 | h2
      · exact absurd h1 hnot
      · exact h2
    exact (List.pairwise_append.mp hsorted).2.2 r hr s hdrop

/-- C6 witness: on the concrete database `dbChats` (five sessions of user 1),
`getChatHistory(1, 2)` returns exactly `min 2 5 = 2` rows. -/
theorem getChatHistory_desc_limit_w :
    (getChatHistory dbChats 1 2).1.length
      = min 2 ((dbChats.chatSessions.filter (fun s => s.userId == 1)).length) :=
  (getChatHistory_desc_limit dbChats 1 2).2.2.1

/-- C8: `createEvent(data)` coerces `dateTime` (parsing a string, copying a
date value), coerces a present (truthy) `endDateTime` the same way, stores
null for `endDateTime` when it is absent from the input, passes the remaining
fields through unchanged, appends the new row to the table and returns it. -/
theorem createEvent_coerces_dates (parse : String → Timestamp) (db : DB)
    (data : InsertEvent) :
    (∀ s, data.dateTime = .str s → ((createEvent parse db data).1).dateTime = parse s) ∧
    (∀ t, data.dateTime = .date t → ((createEvent parse db data).1).dateTime = t) ∧
    (data.endDateTime = .undef → ((createEvent parse db data).1).endDateTime = none) ∧
    (∀ s, ¬ s = "" → data.endDateTime = .val (.str s) →
      ((createEvent parse db data).1).endDateTime = some (parse s)) ∧
    (∀ t, data.endDateTime = .val (.date t) →
      ((createEvent parse db data).1).endDateTime = some t) ∧
    ((createEvent parse db data).2.events = db.events ++ [(createEvent parse db data).1]) ∧
    ((createEvent parse db data).1.campusId = data.campusId ∧
      (createEvent parse db data).1.programType = data.programType ∧
      (createEvent parse db data).1.participantCount = data.participantCount ∧
      (createEvent parse db data).1.rating = data.rating) := by
  refine ⟨?_, ?_, ?_, ?_, ?_, rfl, rfl, rfl, rfl, rfl⟩
  · intro s hs
    simp [createEvent, newDate, hs]
  · intro t ht
    simp [createEvent, newDate, ht]
  · intro h
    simp [createEvent, coerceIfTruthy, h]
  · intro s hs h
    simp [createEvent, coerceIfTruthy, h, hs]
  · intro t h
    simp [createEvent, coerceIfTruthy, h]

/-- C8 witness: inserting the concrete payload `insNullEnd` (whose `dateTime`
is the date value 7) stores `dateTime = 7`. -/
theorem createEvent_coerces_dates_w :
    ((createEvent parse0 emptyDB insNullEnd).1).dateTime = 7 :=
  (createEvent_coerces_dates parse0 emptyDB insNullEnd).2.1 7 rfl

/-- C10: when `endDateTime` is present but falsy (explicit null or the empty
string), `createEvent` stores null for it without parsing and without
failing: the row is inserted normally, and the stored value is `none` for
every possible behavior of the date parser. -/
theorem createEvent_falsy_endDateTime (parse : String → Timestamp) (db : DB)
    (data : InsertEvent)
    (h : data.endDateTime = .null ∨ data.endDateTime = .val (.str "")) :
    ((createEvent parse db data).1).endDateTime = none ∧
    (createEvent parse db data).2.events = db.events ++ [(createEvent parse db data).1] := by
  refine ⟨?_, rfl⟩
  rcases h with h | h <;> simp [createEvent, coerceIfTruthy, h]

/-- C10 witness: the concrete payload `insNullEnd` has `endDateTime: null`;
the stored column is null. -/
theorem createEvent_falsy_endDateTime_w :
    ((createEvent parse0 emptyDB insNullEnd).1).endDateTime = none :=
  (createEvent_falsy_endDateTime parse0 emptyDB insNullEnd (Or.inl rfl)).1

/-! Helper lemmas about the month-accumulator of `getMonthlyParticipation`. -/

/-- Looking a key up after the in-place `acc[month] += n` update of the
matching entries: the entry for `m'` gains `n`, every other entry is
unchanged. -/
theorem monthVal_cons (m : String) (p : String × Int) (l : List (String × Int)) :
    monthVal m (p :: l) = if p.1 = m then some p.2 else monthVal m l := rfl

theorem monthVal_map_bump (m m' : String) (n : Int) (acc : List (String × Int)) :
    monthVal m (acc.map (fun p => if p.1 == m' then (p.1, p.2 + n) else p)) =
      if m = m' then (monthVal m acc).map (fun v => v + n) else monthVal m acc := by
  induction acc with
  | nil => by_cases h : m = m' <;> simp [monthVal, h]
  | cons p rest ih =>
    rw [List.map_cons]
    by_cases hq : p.1 = m'
    · rw [show (if p.1 == m' then (p.1, p.2 + n) else p) = (p.1, p.2 + n) by simp [hq]]
      rw [monthVal_cons, monthVal_cons]
      by_cases hp : p.1 = m
      · have hm : m = m' := by rw [← hp, hq]
        simp only [if_pos hp, if_pos hm]
        rfl
      · simp only [if_neg hp]
        rw [ih]
    · rw [show (if p.1 == m' then (p.1, p.2 + n) else p) = p by simp [hq]]
      rw [monthVal_cons, monthVal_cons]
      by_cases hp : p.1 = m
      · have hm : ¬ m = m' := by rw [← hp]; exact hq
        simp only [if_pos hp, if_neg hm]
      · simp only [if_neg hp]
        rw [ih]

/-- Looking a key up after appending a fresh entry. -/
theorem monthVal_append (m m' : String) (n : Int) (acc : List (String × Int)) :
    monthVal m (acc ++ [(m', n)]) =
      if (monthVal m acc).isSome then monthVal m acc
      else if m = m' then some n else none := by
  induction acc with
  | nil =>
    by_cases h : m = m'
    · simp [monthVal, h]
    · simp [monthVal, h, Ne.symm h]
  | cons p rest ih => by_cases hp : p.1 = m <;> simp [monthVal, hp, ih]

/-- A key is present in the accumulator exactly when some entry carries it. -/
theorem monthVal_isSome (m : String) (acc : List (String × Int)) :
    (monthVal m acc).isSome = acc.any (fun p => p.1 == m) := by
  induction acc with
  | nil => simp [monthVal]
  | cons p rest ih => by_cases hp : p.1 = m <;> simp [monthVal, hp, ih]

/-- The keys after a `bumpMonth` step: unchanged when the key already exists,
extended by the new key otherwise. -/
theorem bumpMonth_keys (m' : String) (n : Int) (acc : List (String × Int)) :
    (bumpMonth m' n acc).map Prod.fst =
      if acc.any (fun p => p.1 == m') then acc.map Prod.fst
      else acc.map Prod.fst ++ [m'] := by
  by_cases h : acc.any (fun p => p.1 == m') = true
  · rw [bumpMonth, if_pos h, if_pos h, List.map_map]
    apply List.map_congr_left
    intro p hp
    by_cases hq : p.1 = m' <;> simp [hq]
  · rw [bumpMonth, if_neg h, if_neg h, List.map_append]
    rfl

/-- `bumpMonth` preserves distinctness of the keys. -/
theorem bumpMonth_nodupKeys (m' : String) (n : Int) (acc : List (String × Int))
    (h : (acc.map Prod.fst).Nodup) : ((bumpMonth m' n acc).map Prod.fst).Nodup := by
  by_cases hc : acc.any (fun p => p.1 == m') = true
  · rw [bumpMonth_keys, if_pos hc]
    exact h
  · rw [bumpMonth_keys, if_neg hc]
    have hm : m' ∉ acc.map Prod.fst := by
      intro hmem
      obtain ⟨p, hp, hpe⟩ := List.mem_map.mp hmem
      exact hc (List.any_eq_true.mpr ⟨p, hp, by simp [hpe]⟩)
    exact h.append (List.nodup_singleton m')
      (fun a ha hb => by rw [List.mem_singleton] at hb; subst hb; exact hm ha)

/-- Looking a key up after one JS reduce step
`acc[month] = (acc[month] || 0) + n`. -/
theorem monthVal_bumpMonth (m m' : String) (n : Int) (acc : List (String × Int)) :
    monthVal m (bumpMonth m' n acc) =
      if m = m' then some ((monthVal m acc).getD 0 + n) else monthVal m acc := by
  by_cases hc : acc.any (fun p => p.1 == m') = true
  · rw [bumpMonth, if_pos hc, monthVal_map_bump]
    by_cases hm : m = m'
    · rw [if_pos hm, if_pos hm]
      have hs : (monthVal m acc).isSome = true := by
        rw [monthVal_isSome, hm]
        exact hc
      obtain ⟨v, hv⟩ := Option.isSome_iff_exists.mp hs
      rw [hv]
      simp
    · rw [if_neg hm, if_neg hm]
  · rw [bumpMonth, if_neg hc, monthVal_append]
    by_cases hm : m = m'
    · have hnone : monthVal m acc = none := by
        have hs : (monthVal m acc).isSome = false := by
          rw [monthVal_isSome, hm]
          exact Bool.eq_false_iff.mpr hc
        cases hmv : monthVal m acc with
        | none => rfl
        | some v => rw [hmv] at hs; cases hs
      subst hm
      simp [hnone]
    · cases hmv : monthVal m acc <;> simp [hmv, hm]

/-- Unfolding `monthSum` over a cons. -/
theorem monthSum_cons (mn : Timestamp → String) (m : String) (e : Event) (l : List Event) :
    monthSum mn m (e :: l) =
      if mn e.dateTime = m then e.participantCount.getD 0 + monthSum mn m l
      else monthSum mn m l := by
  by_cases h : mn e.dateTime = m <;> simp [monthSum, List.filter_cons, h]

/-- The value of a key after folding the whole reduce: present exactly when
the key already was, or some event of the list has that month; the value is
the carried-in value plus the sum of the matching events' counts. -/
theorem monthVal_fold (mn : Timestamp → String) (m : String) (l : List Event) :
    ∀ acc : List (String × Int),
      monthVal m (l.foldl (fun acc e =>
          bumpMonth (mn e.dateTime) (e.participantCount.getD 0) acc) acc) =
        if l.any (fun e => mn e.dateTime == m) || (monthVal m acc).isSome
        then some ((monthVal m acc).getD 0 + monthSum mn m l)
        else none := by
  induction l with
  | nil =>
    intro acc
    cases hmv : monthVal m acc <;> simp [monthSum, hmv]
  | cons e l' ih =>
    intro acc
    rw [List.foldl_cons, ih]
    by_cases hm : mn e.dateTime = m
    · have h1 : monthVal m (bumpMonth (mn e.dateTime) (e.participantCount.getD 0) acc)
          = some ((monthVal m acc).getD 0 + e.participantCount.getD 0) := by
        rw [monthVal_bumpMonth, if_pos hm.symm]
      rw [h1]
      simp [monthSum_cons, hm, add_assoc]
    · have h1 : monthVal m (bumpMonth (mn e.dateTime) (e.participantCount.getD 0) acc)
          = monthVal m acc := by
        rw [monthVal_bumpMonth, if_neg (fun hh => hm hh.symm)]
      rw [h1]
      simp [monthSum_cons, hm]

/-- Folding the whole reduce preserves distinctness of the keys. -/
theorem nodupKeys_fold (mn : Timestamp → String) (l : List Event) :
    ∀ acc : List (String × Int), (acc.map Prod.fst).Nodup →
      ((l.foldl (fun acc e => bumpMonth (mn e.dateTime) (e.participantCount.getD 0) acc)
        acc).map Prod.fst).Nodup := by
  induction l with
  | nil => intro acc h; exact h
  | cons e l' ih => intro acc h; exact ih _ (bumpMonth_nodupKeys _ _ _ h)

/-- With distinct keys, association-list membership is first-occurrence
lookup. -/
theorem mem_iff_monthVal (m : String) (t : Int) :
    ∀ acc : List (String × Int), (acc.map Prod.fst).Nodup →
      ((m, t) ∈ acc ↔ monthVal m acc = some t) := by
  intro acc
  induction acc with
  | nil => intro _; simp [monthVal]
  | cons p rest ih =>
    intro h
    rw [List.map_cons, List.nodup_cons] at h
    rw [List.mem_cons]
    by_cases hp : p.1 = m
    · simp only [monthVal]
      rw [if_pos hp]
      constructor
      · rintro (he | he)
        · rw [← he]
        · have hmem : m ∈ rest.map Prod.fst := List.mem_map.mpr ⟨(m, t), he, rfl⟩
          rw [← hp] at hmem
          exact absurd hmem h.1
      · intro hv
        left
        have hvt : p.2 = t := Option.some.inj hv
        exact Prod.ext hp.symm hvt.symm
    · simp only [monthVal]
      rw [if_neg hp, ← ih h.2]
      constructor
      · rintro (he | he)
        · exact absurd (congrArg Prod.fst he).symm hp
        · exact he
      · intro he
        exact Or.inr he

/-- C2: `getMonthlyParticipation(campusId, year)` contains an entry `(m,
total)` exactly when some event of the campus has local year `year` and
month name `m`, in which case `total` is the sum of those events'
`participantCount` with null counted as zero; the month keys are pairwise
distinct, so months without events are omitted and every represented month
has exactly one entry. -/
theorem getMonthlyParticipation_month_sums (ly : Timestamp → Int)
    (mn : Timestamp → String) (db : DB) (cid : Nat) (year : Int) :
    (∀ m total, (m, total) ∈ (getMonthlyParticipation ly mn db cid year).1 ↔
      ((∃ ev ∈ db.events, ev.campusId = cid ∧ ly ev.dateTime = year ∧
          mn ev.dateTime = m) ∧
        total = monthSum mn m (yearEvents ly db cid year))) ∧
    ((getMonthlyParticipation ly mn db cid year).1.map Prod.fst).Nodup := by
  have hres : (getMonthlyParticipation ly mn db cid year).1
      = (yearEvents ly db cid year).foldl
          (fun acc e => bumpMonth (mn e.dateTime) (e.participantCount.getD 0) acc) [] := rfl
  have hnd : ((getMonthlyParticipation ly mn db cid year).1.map Prod.fst).Nodup := by
    rw [hres]
    exact nodupKeys_fold mn _ [] (by simp)
  refine ⟨?_, hnd⟩
  intro m total
  rw [mem_iff_monthVal m total _ hnd, hres, monthVal_fold]
  simp only [monthVal, Option.isSome_none, Bool.or_false, Option.getD_none, zero_add]
  by_cases hex : ∃ ev ∈ db.events, ev.campusId = cid ∧ ly ev.dateTime = year ∧
      mn ev.dateTime = m
  · have hany : (yearEvents ly db cid year).any (fun e => mn e.dateTime == m) = true := by
      obtain ⟨ev, hev, h1, h2, h3⟩ := hex
      exact List.any_eq_true.mpr
        ⟨ev, List.mem_filter.mpr ⟨List.mem_filter.mpr ⟨hev, by simp [h1]⟩, by simp [h2]⟩,
          by simp [h3]⟩
    rw [if_pos hany]
    constructor
    · intro hsome
      exact ⟨hex, (Option.some.inj hsome).symm⟩
    · rintro ⟨-, ht⟩
      rw [ht]
  · have hany : (yearEvents ly db cid year).any (fun e => mn e.dateTime == m) = false := by
      rw [Bool.eq_false_iff]
      intro hh
      obtain ⟨ev, hev, h3⟩ := List.any_eq_true.mp hh
      have h2 := List.mem_filter.mp hev
      have h1 := List.mem_filter.mp h2.1
      exact hex ⟨ev, h1.1, by simpa using h1.2, by simpa using h2.2, by simpa using h3⟩
    have hcond : ¬ ((yearEvents ly db cid year).any (fun e => mn e.dateTime == m) = true) := by
      simp [hany]
    rw [if_neg hcond]
    simp [hex]

/-- C2 witness: on the concrete database `dbEvents` (two events of campus 1
with counts 10 and 5, all in March 2024 under the concrete calendar
functions), the result contains the single-month entry `("March", 15)`. -/
theorem getMonthlyParticipation_month_sums_w :
    ("March", (15 : Int)) ∈ (getMonthlyParticipation ly2024 mnMarch dbEvents 1 2024).1 :=
  ((getMonthlyParticipation_month_sums ly2024 mnMarch dbEvents 1 2024).1 "March" 15).mpr
    ⟨by decide, by decide⟩

/-- When at least one processed value is defined, `updateEvent` runs the
update: it maps the matching rows through `applyEventUpdates`, returns the
first updated matching row (or `none`). -/
theorem updateEvent_hasValues (parse : String → Timestamp) (db : DB) (id : Nat)
    (u : EventUpdates) (hs : hasSetValues parse u = true) :
    updateEvent parse db id u =
      (Except.ok (((db.events.map
          (fun e => if e.id == id then applyEventUpdates parse u e else e)).filter
          (fun e => e.id == id)).head?),
        { db with events := db.events.map (fun e => if e.id == id then applyEventUpdates parse u e else e) }) := by
  simp [updateEvent, hs]

/-- When every processed value is `undefined`, `set()` throws and the state
is unchanged. -/
theorem updateEvent_noValues (parse : String → Timestamp) (db : DB) (id : Nat)
    (u : EventUpdates) (hs : hasSetValues parse u = false) :
    updateEvent parse db id u = (Except.error "No values to set", db) := by
  simp [updateEvent, hs]

/-- C1 counterexample: the claim states that a field explicitly set to null
in the payload is a supplied value that sets the column to null.  On the
concrete database `dbEvents`, updating event 1 with the payload
`{ endDateTime: null, participantCount: 3 }` (the extra real value keeps
`set()` away from its `No values to set` error path) succeeds and returns
the row with `participantCount` updated but `endDateTime` still at
`some 5`: the truthiness test maps the explicit null to `undefined`, which
`set` skips, so the column is never set to null. -/
theorem updateEvent_explicit_null_cex :
    (updateEvent parse0 dbEvents 1 updNullEndPlus).1
      = Except.ok (some { evA with participantCount := some 3 }) ∧
    evA.endDateTime = some 5 ∧
    Event.endDateTime { evA with participantCount := some 3 } = some 5 := by
  exact ⟨rfl, rfl, rfl⟩

/-- C1 (amended): `updateEvent(id, partialUpdates)` applies partial-update
semantics: every field absent from the payload passes through untouched;
date coercion is applied exactly to the truthy `dateTime` / `endDateTime`
values present in the payload; a non-date field explicitly set to null is a
supplied value and sets the column to null; but a `dateTime` or
`endDateTime` explicitly set to null (or to the empty string) is coerced to
`undefined` and treated as unset, leaving the column untouched rather than
setting it to null.  When at least one processed value is defined, the call
updates exactly the rows matching `id` and returns the updated record, or
the absent marker when no row matched; when every processed value is
`undefined` (empty payload, or only falsy date fields), `set()` throws
`No values to set` and the state is unchanged. -/
theorem updateEvent_partial_semantics (parse : String → Timestamp) (db : DB)
    (id : Nat) (u : EventUpdates) (e : Event) :
    (u.campusId = none → (applyEventUpdates parse u e).campusId = e.campusId) ∧
    (u.programType = none → (applyEventUpdates parse u e).programType = e.programType) ∧
    (u.dateTime = .undef → (applyEventUpdates parse u e).dateTime = e.dateTime) ∧
    (u.endDateTime = .undef → (applyEventUpdates parse u e).endDateTime = e.endDateTime) ∧
    (u.participantCount = .unset →
      (applyEventUpdates parse u e).participantCount = e.participantCount) ∧
    (u.rating = .unset → (applyEventUpdates parse u e).rating = e.rating) ∧
    (∀ s, ¬ s = "" → u.dateTime = .val (.str s) →
      (applyEventUpdates parse u e).dateTime = parse s) ∧
    (∀ t, u.dateTime = .val (.date t) → (applyEventUpdates parse u e).dateTime = t) ∧
    (∀ s, ¬ s = "" → u.endDateTime = .val (.str s) →
      (applyEventUpdates parse u e).endDateTime = some (parse s)) ∧
    (∀ t, u.endDateTime = .val (.date t) →
      (applyEventUpdates parse u e).endDateTime = some t) ∧
    (u.dateTime = .null → (applyEventUpdates parse u e).dateTime = e.dateTime) ∧
    (u.dateTime = .val (.str "") → (applyEventUpdates parse u e).dateTime = e.dateTime) ∧
    (u.endDateTime = .null → (applyEventUpdates parse u e).endDateTime = e.endDateTime) ∧
    (u.endDateTime = .val (.str "") →
      (applyEventUpdates parse u e).endDateTime = e.endDateTime) ∧
    (∀ n, u.participantCount = .set n →
      (applyEventUpdates parse u e).participantCount = some n) ∧
    (u.participantCount = .setNull →
      (applyEventUpdates parse u e).participantCount = none) ∧
    (u.rating = .setNull → (applyEventUpdates parse u e).rating = none) ∧
    (hasSetValues parse u = false →
      (updateEvent parse db id u).1 = Except.error "No values to set" ∧
        (updateEvent parse db id u).2 = db) ∧
    (hasSetValues parse u = true → (∀ ev ∈ db.events, ¬ ev.id = id) →
      (updateEvent parse db id u).1 = Except.ok none ∧
        (updateEvent parse db id u).2.events = db.events) ∧
    (hasSetValues parse u = true → ∀ ev ∈ db.events, ¬ ev.id = id →
      ev ∈ (updateEvent parse db id u).2.events) ∧
    (hasSetValues parse u = true →
      ∀ ev, (updateEvent parse db id u).1 = Except.ok (some ev) →
        ∃ e₀ ∈ db.events, e₀.id = id ∧ ev = applyEventUpdates parse u e₀) ∧
    (hasSetValues parse u = true → (∃ ev ∈ db.events, ev.id = id) →
      ∃ ev, (updateEvent parse db id u).1 = Except.ok (some ev)) := by
  refine ⟨?_, ?_, ?_, ?_, ?_, ?_, ?_, ?_, ?_, ?_, ?_, ?_, ?_, ?_, ?_, ?_, ?_, ?_, ?_, ?_, ?_,
    ?_⟩
  · intro h
    simp [applyEventUpdates, h]
  · intro h
    simp [applyEventUpdates, h]
  · intro h
    simp [applyEventUpdates, coerceIfTruthy, h]
  · intro h
    simp [applyEventUpdates, coerceIfTruthy, h]
  · intro h
    simp [applyEventUpdates, h]
  · intro h
    simp [applyEventUpdates, h]
  · intro s hs h
    simp [applyEventUpdates, coerceIfTruthy, h, hs]
  · intro t h
    simp [applyEventUpdates, coerceIfTruthy, h]
  · intro s hs h
    simp [applyEventUpdates, coerceIfTruthy, h, hs]
  · intro t h
    simp [applyEventUpdates, coerceIfTruthy, h]
  · intro h
    simp [applyEventUpdates, coerceIfTruthy, h]
  · intro h
    simp [applyEventUpdates, coerceIfTruthy, h]
  · intro h
    simp [applyEventUpdates, coerceIfTruthy, h]
  · intro h
    simp [applyEventUpdates, coerceIfTruthy, h]
  · intro n h
    simp [applyEventUpdates, h]
  · intro h
    simp [applyEventUpdates, h]
  · intro h
    simp [applyEventUpdates, h]
  · intro hs
    rw [updateEvent_noValues parse db id u hs]
    exact ⟨rfl, rfl⟩
  · intro hs h
    rw [updateEvent_hasValues parse db id u hs]
    have hmap : db.events.map
        (fun ev => if ev.id == id then applyEventUpdates parse u ev else ev) = db.events := by
      have h2 : ∀ ev ∈ db.events,
          (if ev.id == id then applyEventUpdates parse u ev else ev) = ev := by
        intro ev hev
        simp [h ev hev]
      exact (List.map_congr_left h2).trans (List.map_id' db.events)
    constructor
    · show Except.ok (((db.events.map
          (fun ev => if ev.id == id then applyEventUpdates parse u ev else ev)).filter
          (fun ev => ev.id == id)).head?) = Except.ok none
      rw [hmap]
      exact congrArg Except.ok ((lookupOne (fun ev => ev.id == id) db.events
        (fun ev => ev.id = id) (fun ev => by simp)).1.mpr h)
    · exact hmap
  · intro hs ev hev hid
    rw [updateEvent_hasValues parse db id u hs]
    show ev ∈ db.events.map (fun x => if x.id == id then applyEventUpdates parse u x else x)
    have hm := List.mem_map_of_mem
      (fun x => if x.id == id then applyEventUpdates parse u x else x) hev
    simpa [hid] using hm
  · intro hs ev hev
    rw [updateEvent_hasValues parse db id u hs] at hev
    have hev' : Except.ok (((db.events.map
        (fun x => if x.id == id then applyEventUpdates parse u x else x)).filter
        (fun x => x.id == id)).head?) = Except.ok (some ev) := hev
    have hev'' := Except.ok.inj hev'
    have hm := (lookupOne (fun x => x.id == id)
      (db.events.map (fun x => if x.id == id then applyEventUpdates parse u x else x))
      (fun x => x.id = id) (fun x => by simp)).2.1 ev hev''
    obtain ⟨hmem, hid⟩ := hm
    obtain ⟨e₀, he₀, hfe⟩ := List.mem_map.mp hmem
    by_cases h0 : e₀.id = id
    · refine ⟨e₀, he₀, h0, ?_⟩
      rw [← hfe]
      simp [h0]
    · exfalso
      rw [← hfe] at hid
      simp [h0] at hid
  · intro hs
    rintro ⟨e₀, he₀, h0⟩
    rw [updateEvent_hasValues parse db id u hs]
    have hsome := (lookupOne (fun x => x.id == id)
      (db.events.map (fun x => if x.id == id then applyEventUpdates parse u x else x))
      (fun x => x.id = id) (fun x => by simp)).2.2
      ⟨applyEventUpdates parse u e₀, by
        have hm := List.mem_map_of_mem
          (fun x => if x.id == id then applyEventUpdates parse u x else x) he₀
        simpa [h0] using hm, h0⟩
    obtain ⟨x, hx⟩ := hsome
    exact ⟨x, congrArg Except.ok hx⟩

/-- C1 witness: the empty payload has no value to set; the call fails with
the `No values to set` error instead of silently succeeding. -/
theorem updateEvent_partial_semantics_w :
    (updateEvent parse0 dbEvents 1 EventUpdates.empty).1
      = Except.error "No values to set" :=
  ((updateEvent_partial_semantics parse0 dbEvents 1 EventUpdates.empty
      evA).2.2.2.2.2.2.2.2.2.2.2.2.2.2.2.2.2.1 (by decide)).1

end TinkuAi
